import Mathlib

/-!
Verification of the scan-classification and history-persistence core of the
QR scanner application (source file: `src/lib/scan-history.tsx`).

The classifier `detectScanType` (source lines 26-34) and the history store
operations (`loadHistory`, `saveHistory`, `addScan`, `removeScan`,
`clearHistory`, source lines 44-87) are embedded as executable Lean
functions.  JavaScript strings are represented by Lean `String`
(a list of characters); the regular expressions of the source are unfolded
into explicit, deterministic matching functions, each documented with the
regex it embeds.  Machine-generated inputs of the store (the fresh UUID from
`Crypto.randomUUID()` and the clock value from `Date.now()`) are passed in
as explicit parameters, and the durable storage collaborator
(`AsyncStorage`) is modelled by an explicit outcome parameter.
-/

namespace QrScan

/-- The content-type tags, source line 7:
`type ScanType = 'url' | 'text' | 'email' | 'phone' | 'wifi' | 'unknown'`. -/
inductive ScanType where
  | url
  | text
  | email
  | phone
  | wifi
  | unknown
deriving DecidableEq

/-- The JavaScript whitespace class: the characters removed by
`String.prototype.trim` and matched by the regex class `\s`
(WhiteSpace plus LineTerminator of the ECMAScript specification). -/
def isJsWs (c : Char) : Bool :=
  let n := c.toNat
  decide ((9 ≤ n ∧ n ≤ 13) ∨ n = 32 ∨ n = 160 ∨ n = 0x1680 ∨
    (0x2000 ≤ n ∧ n ≤ 0x200A) ∨ n = 0x2028 ∨ n = 0x2029 ∨ n = 0x202F ∨
    n = 0x205F ∨ n = 0x3000 ∨ n = 0xFEFF)

/-- JavaScript `data.trim()` (source line 27): remove leading and trailing
whitespace characters. -/
def jsTrim (cs : List Char) : List Char :=
  ((cs.dropWhile isJsWs).reverse.dropWhile isJsWs).reverse

/-- String-level view of `jsTrim`. -/
def jsTrimS (s : String) : String :=
  String.mk (jsTrim s.data)

/-- ASCII lower-casing of one character, the canonicalisation performed by a
case-insensitive (flag `i`, non-unicode) ECMAScript regex on ASCII letters. -/
def lowerAscii (c : Char) : Char :=
  if decide (65 ≤ c.toNat ∧ c.toNat ≤ 90) then Char.ofNat (c.toNat + 32) else c

/-- Case-insensitive anchored-at-start match of the lower-case ASCII pattern
`p` against `cs`: the embedding of `/^p/i.test(cs)` for a literal pattern. -/
def startsWithCI (p cs : List Char) : Bool :=
  (cs.take p.length).map lowerAscii == p

/-- A character admitted by the regex class `[^\s@]` (source line 29):
neither JavaScript whitespace nor the at sign. -/
def okEmailChar (c : Char) : Bool :=
  !(isJsWs c) && c != '@'

/-- The embedding of the anchored email-shape regex of source line 29,
`/^[^\s@]+@[^\s@]+\.[^\s@]+$/.test(trimmed)`: a non-empty run of
`[^\s@]` characters, the at sign, then a tail that is all `[^\s@]`
and contains a dot that is neither its first nor its last character
(the greedy run before the at sign is deterministic because the at sign
itself is excluded from the class). -/
def matchesEmailShape (cs : List Char) : Bool :=
  match cs.dropWhile okEmailChar with
  | '@' :: b =>
    !(cs.takeWhile okEmailChar).isEmpty && b.all okEmailChar &&
      ((b.drop 1).dropLast.contains '.')
  | _ => false

/-- A character admitted by the regex class `[\d\s\-()]` (source line 30):
an ASCII digit, JavaScript whitespace, hyphen, or a parenthesis. -/
def isPhoneBody (c : Char) : Bool :=
  c.isDigit || isJsWs c || c == '-' || c == '(' || c == ')'

/-- The part `\d[\d\s\-()]{6,}$` of the phone regex: a digit followed by at
least six characters of the body class, running to the end of the string. -/
def phoneDigitTail (cs : List Char) : Bool :=
  match cs with
  | d :: rest => d.isDigit && decide (6 ≤ rest.length) && rest.all isPhoneBody
  | [] => false

/-- The embedding of the anchored phone-shape regex of source line 30,
`/^\+?\d[\d\s\-()]{6,}$/.test(trimmed)`: an optional leading plus sign,
then `phoneDigitTail`. -/
def matchesPhoneShape (cs : List Char) : Bool :=
  match cs with
  | '+' :: rest => phoneDigitTail rest
  | _ => phoneDigitTail cs

/-- The rule chain of `detectScanType` applied to the already-trimmed
character list (source lines 28-33), one `if` per source line, in source
order. -/
def classifyTrimmed (t : List Char) : ScanType :=
  if startsWithCI "http://".data t || startsWithCI "https://".data t ||
      startsWithCI "www.".data t then ScanType.url
  else if startsWithCI "mailto:".data t || matchesEmailShape t then ScanType.email
  else if startsWithCI "tel:".data t || matchesPhoneShape t then ScanType.phone
  else if startsWithCI "wifi:".data t then ScanType.wifi
  else if decide (0 < t.length) then ScanType.text
  else ScanType.unknown

/-- The classifier `detectScanType` (source lines 26-34): trim the input,
then run the ordered rule chain.  A pure total function. -/
def detectScanType (data : String) : ScanType :=
  classifyTrimmed (jsTrim data.data)

/-- The six rules of the classifier as an ordered list of
(guard, resulting tag) pairs over the trimmed text, in the order of source
lines 28-32; the final `unknown` case is the fall-through of `firstMatch`. -/
def ruleChecks (t : List Char) : List (Bool × ScanType) :=
  [ (startsWithCI "http://".data t || startsWithCI "https://".data t ||
       startsWithCI "www.".data t, ScanType.url),
    (startsWithCI "mailto:".data t || matchesEmailShape t, ScanType.email),
    (startsWithCI "tel:".data t || matchesPhoneShape t, ScanType.phone),
    (startsWithCI "wifi:".data t, ScanType.wifi),
    (decide (0 < t.length), ScanType.text) ]

/-- First-match-wins evaluation of an ordered list of guarded tags, with
`unknown` as the result when no guard holds. -/
def firstMatch : List (Bool × ScanType) → ScanType
  | [] => ScanType.unknown
  | (b, tag) :: rest => if b then tag else firstMatch rest

/-- A scan record (source lines 9-14): the stored payload `data` is the raw
scanned string, `type` its tag, `timestamp` the `Date.now()` value in
milliseconds. -/
structure ScanItem where
  id : String
  data : String
  type : ScanType
  timestamp : Nat
deriving DecidableEq

/-- The state owned by `ScanHistoryProvider` (source lines 37-38): the
ordered history collection, newest first, and the loading flag. -/
structure StoreState where
  history : List ScanItem
  isLoading : Bool
deriving DecidableEq

/-- The initial provider state (source lines 37-38): empty history,
`isLoading = true`. -/
def initialState : StoreState :=
  { history := [], isLoading := true }

/-- Outcome of one `AsyncStorage.setItem` attempt, supplied by the storage
environment. -/
inductive WriteOutcome where
  | ok
  | fail
deriving DecidableEq

/-- The raw `AsyncStorage.setItem` collaborator: it either succeeds or
rejects with an error. -/
def setItemResult : WriteOutcome → Except String Unit
  | WriteOutcome.ok => Except.ok ()
  | WriteOutcome.fail => Except.error "Failed to save scan history"

/-- The function `saveHistory` (source lines 57-63): the write attempt is
wrapped in try/catch, a rejection is logged via `console.error` and
swallowed, so the function always returns normally. -/
def saveHistory (w : WriteOutcome) (_items : List ScanItem) : Unit :=
  match setItemResult w with
  | Except.ok _ => ()
  | Except.error _ => ()

/-- A JSON value, the result of a successful `JSON.parse` and the argument
of `JSON.stringify` (platform builtins used at source lines 48 and 59). -/
inductive Json where
  | null
  | bool (b : Bool)
  | num (n : Int)
  | str (s : String)
  | arr (elems : List Json)
  | obj (fields : List (String × Json))

/-- The serialized key of a tag, as `JSON.stringify` renders the string
literals of `ScanType`. -/
def scanTypeKey : ScanType → String
  | ScanType.url => "url"
  | ScanType.text => "text"
  | ScanType.email => "email"
  | ScanType.phone => "phone"
  | ScanType.wifi => "wifi"
  | ScanType.unknown => "unknown"

/-- Modelled from the spec: reading a tag back from its serialized key
(the source stores the tag as one of the six string literals and performs
no explicit validation on load, the snapshot being its own previous
output). -/
def scanTypeOfKey (s : String) : Option ScanType :=
  if s = "url" then some ScanType.url
  else if s = "text" then some ScanType.text
  else if s = "email" then some ScanType.email
  else if s = "phone" then some ScanType.phone
  else if s = "wifi" then some ScanType.wifi
  else if s = "unknown" then some ScanType.unknown
  else none

/-- The JSON object `JSON.stringify` produces for one `ScanItem`: the four
fields in declaration order (source lines 66-71). -/
def itemToJson (it : ScanItem) : Json :=
  Json.obj [("id", Json.str it.id), ("data", Json.str it.data),
    ("type", Json.str (scanTypeKey it.type)),
    ("timestamp", Json.num (Int.ofNat it.timestamp))]

/-- The JSON value `JSON.stringify(items)` produces for the collection
(source line 59): the array of the item objects in order. -/
def encodeItems (items : List ScanItem) : Json :=
  Json.arr (items.map itemToJson)

/-- Modelled from the spec: reading one record back from its serialized
object, the inverse of `itemToJson` (the source casts the parsed value
without validation; the spec describes the snapshot as records carrying
id, payload, category tag and timestamp). -/
def itemOfJson : Json → Option ScanItem
  | Json.obj [("id", Json.str i), ("data", Json.str d),
      ("type", Json.str ty), ("timestamp", Json.num ts)] =>
    match scanTypeOfKey ty, ts with
    | some t, Int.ofNat n =>
      some { id := i, data := d, type := t, timestamp := n }
    | _, _ => none
  | _ => none

/-- Modelled from the spec: reading a record list back element by element. -/
def decodeItemList : List Json → Option (List ScanItem)
  | [] => some []
  | j :: js =>
    match itemOfJson j, decodeItemList js with
    | some it, some its => some (it :: its)
    | _, _ => none

/-- Modelled from the spec: decoding a parsed snapshot value into the typed
collection, the inverse of `encodeItems`. -/
def decodeItems : Json → Option (List ScanItem)
  | Json.arr es => decodeItemList es
  | _ => none

/-- The possible contents of durable storage under the key
`@qr_scan_history` at startup, as seen through `AsyncStorage.getItem` and
`JSON.parse` (source lines 46-48): `absent` covers a missing key and the
empty string (both falsy at the `if (stored)` guard), `corrupt` a stored
string on which `JSON.parse` throws, and `value j` a stored string that
parses to the JSON value `j`. -/
inductive Snapshot where
  | absent
  | corrupt
  | value (j : Json)

/-- The provider state at the JavaScript level during startup: the
`history` state variable holds whatever value was installed into it
(`useState` initializes it to the empty array, source line 37), and
`isLoading` the readiness flag (source line 38).  Because the load path
installs the result of `JSON.parse` without any validation (source line
48), this state carries a raw JSON value; the typed `StoreState` above is
its restriction to record-list values, under which the mutation operations
run. -/
structure RawLoadState where
  historyVal : Json
  isLoading : Bool

/-- The provider state right after mount (source lines 37-38): the
`history` state variable holds the empty array, `isLoading` is `true`. -/
def initialRawState : RawLoadState :=
  { historyVal := Json.arr [], isLoading := true }

/-- The function `loadHistory` (source lines 44-55): a missing (or empty,
hence falsy) stored string is skipped; otherwise
`setHistory(JSON.parse(stored))` installs the parsed value into the state
with no validation of its shape; a `JSON.parse` exception is caught and
logged; the `finally` block clears `isLoading` in every case. -/
def loadHistory (snap : Snapshot) (st : RawLoadState) : RawLoadState :=
  match snap with
  | Snapshot.absent => { st with isLoading := false }
  | Snapshot.corrupt => { st with isLoading := false }
  | Snapshot.value j => { historyVal := j, isLoading := false }

/-- The function `addScan` (source lines 65-76): build the new record from
the fresh UUID (`freshId`, for `Crypto.randomUUID()`), the clock value
(`now`, for `Date.now()`) and the raw payload, prepend it to the history,
attempt the durable write, and return the record together with the updated
state. -/
def addScan (freshId : String) (now : Nat) (data : String) (st : StoreState)
    (w : WriteOutcome) : ScanItem × StoreState :=
  let newItem : ScanItem :=
    { id := freshId, data := data, type := detectScanType data, timestamp := now }
  let updated := newItem :: st.history
  let _saved := saveHistory w updated
  (newItem, { st with history := updated })

/-- The function `removeScan` (source lines 78-82): filter out the records
whose id equals the argument, attempt the durable write. -/
def removeScan (id : String) (st : StoreState) (w : WriteOutcome) : StoreState :=
  let updated := st.history.filter (fun item => item.id != id)
  let _saved := saveHistory w updated
  { st with history := updated }

/-- The function `clearHistory` (source lines 84-87): replace the history
with the empty list, attempt the durable write. -/
def clearHistory (st : StoreState) (w : WriteOutcome) : StoreState :=
  let _saved := saveHistory w []
  { st with history := [] }

/-- The observable events of one `addScan` call, in source order.
`memUpdate` is `setHistory(updated)` (line 73), `persistStarted` the entry
into `await saveHistory(updated)` (line 74), `persistSettled` the
completion of that awaited call (the inner `AsyncStorage.setItem` promise
resolved, or rejected and was caught), and `resultDelivered` the resolution
of the promise returned to the caller with `newItem` (line 75). -/
inductive AddScanEvent where
  | memUpdate
  | persistStarted
  | persistSettled
  | resultDelivered
deriving DecidableEq

/-- The order in which the events of one `addScan` call occur, read off
source lines 72-75: the body runs synchronously through
`setHistory(updated)`, suspends at `await saveHistory(updated)`, and only
after that await completes does `return newItem` resolve the promise the
caller awaits. -/
def addScanEvents : List AddScanEvent :=
  [AddScanEvent.memUpdate, AddScanEvent.persistStarted,
   AddScanEvent.persistSettled, AddScanEvent.resultDelivered]

/-- Position of an event in the `addScan` event order. -/
def eventPos (e : AddScanEvent) : Nat :=
  addScanEvents.findIdx (fun x => x == e)

/-- A concrete record used to instantiate witness statements. -/
def sampleItem : ScanItem :=
  { id := "a1", data := "hello", type := ScanType.text, timestamp := 3 }

/-- A concrete one-record store state used to instantiate witness
statements. -/
def sampleState : StoreState :=
  { history := [sampleItem], isLoading := false }

/-! Helper lemmas shared by the claim theorems. -/

theorem dropWhile_length_le {α : Type} (p : α → Bool) (l : List α) :
    (l.dropWhile p).length ≤ l.length := by
  induction l with
  | nil => exact Nat.le_refl 0
  | cons a t ih =>
    rw [List.dropWhile_cons]
    cases hpa : p a
    · simp
    · simpa using Nat.le_succ_of_le ih

theorem dropWhile_idem {α : Type} (p : α → Bool) (l : List α) :
    (l.dropWhile p).dropWhile p = l.dropWhile p := by
  induction l with
  | nil => rfl
  | cons a t ih =>
    cases hpa : p a <;> simp [List.dropWhile_cons, hpa, ih]

theorem dropWhile_eq_self_of_append {α : Type} (p : α → Bool) (y s l : List α)
    (h : l.dropWhile p = l) (he : l = y ++ s) : y.dropWhile p = y := by
  cases y with
  | nil => rfl
  | cons a t =>
    have hpa : p a = false := by
      by_contra hne
      have hpa : p a = true := by
        cases hq : p a
        · exact absurd hq hne
        · rfl
      rw [he, List.cons_append, List.dropWhile_cons, hpa, if_pos rfl] at h
      have hlen := congrArg List.length h
      have hle := dropWhile_length_le p (t ++ s)
      rw [List.length_cons] at hlen
      omega
    simp [List.dropWhile_cons, hpa]

theorem jsTrim_idem (l : List Char) : jsTrim (jsTrim l) = jsTrim l := by
  unfold jsTrim
  set t1 := l.dropWhile isJsWs with ht1
  have h1 : t1.dropWhile isJsWs = t1 := by
    rw [ht1]; exact dropWhile_idem isJsWs l
  set r := (t1.reverse.dropWhile isJsWs).reverse with hr
  have hsplit : t1 = r ++ (t1.reverse.takeWhile isJsWs).reverse := by
    have h2 := List.takeWhile_append_dropWhile (p := isJsWs) (l := t1.reverse)
    have h3 := congrArg List.reverse h2
    rw [List.reverse_append, List.reverse_reverse] at h3
    rw [hr]
    exact h3.symm
  have hdropr : r.dropWhile isJsWs = r :=
    dropWhile_eq_self_of_append isJsWs r _ t1 h1 hsplit
  rw [hdropr, hr, List.reverse_reverse, dropWhile_idem]

theorem jsTrim_nil_of_all {l : List Char} (h : ∀ c ∈ l, isJsWs c = true) :
    jsTrim l = [] := by
  have hd : l.dropWhile isJsWs = [] := by
    induction l with
    | nil => rfl
    | cons a t ih =>
      rw [List.dropWhile_cons, h a (List.mem_cons_self a t)]
      exact ih (fun c hc => h c (List.mem_cons_of_mem a hc))
  unfold jsTrim
  rw [hd]
  rfl

theorem detectScanType_trim_invariant (d : String) :
    detectScanType (jsTrimS d) = detectScanType d := by
  show classifyTrimmed (jsTrim (jsTrim d.data)) = classifyTrimmed (jsTrim d.data)
  rw [jsTrim_idem]

theorem mem_takeWhile_ok {α : Type} {p : α → Bool} :
    ∀ {l : List α} {a : α}, a ∈ l.takeWhile p → p a = true := by
  intro l
  induction l with
  | nil => intro a h; cases h
  | cons b t ih =>
    intro a h
    rw [List.takeWhile_cons] at h
    cases hpb : p b
    · rw [hpb] at h; cases h
    · rw [hpb] at h
      simp at h
      rcases h with h | h
      · rw [h]; exact hpb
      · exact ih h

theorem matchesEmailShape_chars {l : List Char} (h : matchesEmailShape l = true) :
    ∀ c ∈ l, isJsWs c = false := by
  intro c hc
  unfold matchesEmailShape at h
  split at h
  case h_2 => cases h
  case h_1 b heq =>
    have hcomp : (!(l.takeWhile okEmailChar).isEmpty) = true ∧
        b.all okEmailChar = true ∧ ((b.drop 1).dropLast.contains '.') = true := by
      simp only [Bool.and_eq_true] at h
      exact ⟨h.1.1, h.1.2, h.2⟩
    have hsplit : l.takeWhile okEmailChar ++ ('@' :: b) = l := by
      rw [← heq]
      exact List.takeWhile_append_dropWhile okEmailChar l
    have hmem : c ∈ l.takeWhile okEmailChar ++ ('@' :: b) := by
      rw [hsplit]; exact hc
    rcases List.mem_append.mp hmem with hm | hm
    · have hok := mem_takeWhile_ok hm
      unfold okEmailChar at hok
      simp only [Bool.and_eq_true] at hok
      simpa using hok.1
    · rcases List.mem_cons.mp hm with hm | hm
      · rw [hm]; rfl
      · have hok := (List.all_eq_true.mp hcomp.2.1) c hm
        unfold okEmailChar at hok
        simp only [Bool.and_eq_true] at hok
        simpa using hok.1

theorem phoneDigitTail_chars {l : List Char} (h : phoneDigitTail l = true) :
    ∀ c ∈ l, isPhoneBody c = true := by
  intro c hc
  unfold phoneDigitTail at h
  match l, hc with
  | d :: rest, hc =>
    simp only [Bool.and_eq_true] at h
    rcases List.mem_cons.mp hc with hm | hm
    · unfold isPhoneBody
      rw [hm, h.1.1]
      rfl
    · exact (List.all_eq_true.mp h.2) c hm

theorem matchesPhoneShape_chars {l : List Char} (h : matchesPhoneShape l = true) :
    ∀ c ∈ l, c = '+' ∨ isPhoneBody c = true := by
  intro c hc
  unfold matchesPhoneShape at h
  split at h
  case h_1 rest =>
    rcases List.mem_cons.mp hc with hm | hm
    · exact Or.inl hm
    · exact Or.inr (phoneDigitTail_chars h c hm)
  case h_2 =>
    exact Or.inr (phoneDigitTail_chars h c hc)

theorem filter_id_length {l : List ScanItem} {id : String}
    (hnd : (l.map ScanItem.id).Nodup) (hmem : ∃ a ∈ l, a.id = id) :
    (l.filter (fun x => x.id != id)).length + 1 = l.length := by
  induction l with
  | nil =>
    obtain ⟨a, ha, _⟩ := hmem
    cases ha
  | cons b t ih =>
    rw [List.map_cons, List.nodup_cons] at hnd
    obtain ⟨hb, hndt⟩ := hnd
    by_cases hbid : b.id = id
    · have hall : ∀ x ∈ t, (x.id != id) = true := by
        intro x hx
        have hne : x.id ≠ id := by
          intro heq
          exact hb (by rw [hbid, ← heq]; exact List.mem_map_of_mem ScanItem.id hx)
        simpa [bne_iff_ne] using hne
      have hbfalse : (b.id != id) = false := by simp [hbid]
      rw [List.filter_cons, hbfalse, if_neg Bool.false_ne_true,
        List.filter_eq_self.mpr hall, List.length_cons]
    · obtain ⟨a, ha, haid⟩ := hmem
      have hat : a ∈ t := by
        rcases List.mem_cons.mp ha with hm | hm
        · exact absurd (hm ▸ haid) hbid
        · exact hm
      have hbtrue : (b.id != id) = true := by simpa [bne_iff_ne] using hbid
      rw [List.filter_cons, hbtrue, if_pos rfl]
      simp only [List.length_cons]
      rw [← ih hndt ⟨a, hat, haid⟩]

theorem itemOfJson_itemToJson (it : ScanItem) :
    itemOfJson (itemToJson it) = some it := by
  obtain ⟨i, d, ty, ts⟩ := it
  cases ty <;> rfl

/-- C1: the classifier is a pure total function on strings (a Lean function
by construction, so every string maps to exactly one tag): it trims the
input and evaluates the six rules of the specification in source order with
first-match-wins, and every string whose characters are all whitespace
(the empty string included) is classified `unknown`. -/
theorem detectScanType_ordered_rules (s : String) :
    detectScanType s = firstMatch (ruleChecks (jsTrim s.data)) ∧
      ((∀ c ∈ s.data, isJsWs c = true) → detectScanType s = ScanType.unknown) := by
  constructor
  · rfl
  · intro h
    show classifyTrimmed (jsTrim s.data) = ScanType.unknown
    rw [jsTrim_nil_of_all h]
    rfl

/-- Witness for C1 at the whitespace-only input made of one space and one
tab: it is classified `unknown`. -/
theorem detectScanType_ordered_rules_witness :
    detectScanType " \t" = ScanType.unknown :=
  (detectScanType_ordered_rules " \t").2 (by decide)

/-- C2: `addScan` stores the raw payload untouched, tags it with the
classifier applied to the trimmed view of the payload, and prepends the new
record to the previous history. -/
theorem addScan_payload_category_position (freshId : String) (now : Nat)
    (d : String) (st : StoreState) (w : WriteOutcome) :
    (addScan freshId now d st w).1.data = d ∧
      (addScan freshId now d st w).1.type = detectScanType (jsTrimS d) ∧
      (addScan freshId now d st w).2.history =
        (addScan freshId now d st w).1 :: st.history := by
  refine ⟨rfl, ?_, rfl⟩
  show detectScanType d = detectScanType (jsTrimS d)
  exact (detectScanType_trim_invariant d).symm

/-- Counterexample to C3 as stated: in the event order of `addScan` the
record is not delivered to the awaiting caller before the durable write has
settled, because the source awaits `saveHistory` before `return newItem`. -/
theorem addScan_not_fire_and_forget :
    ¬ (eventPos AddScanEvent.resultDelivered <
        eventPos AddScanEvent.persistSettled) := by
  decide

/-- C3 as amended: `addScan` applies the in-memory update first, then
starts the durable write, and the record is delivered to the awaiting
caller only after the durable write attempt has settled (the write is
awaited; since its failure is caught, the settlement never rejects). -/
theorem addScan_event_order :
    eventPos AddScanEvent.memUpdate < eventPos AddScanEvent.persistStarted ∧
      eventPos AddScanEvent.persistStarted <
        eventPos AddScanEvent.persistSettled ∧
      eventPos AddScanEvent.persistSettled <
        eventPos AddScanEvent.resultDelivered := by
  decide

/-- Counterexample to C4 as stated: at the present, parseable but
malformed snapshot `{"a": 1}`, which does not decode as a record list,
`loadHistory` installs the raw parsed object into the state (source line
48 performs no validation), so the collection does not start empty — the
state does not even hold the empty array. -/
theorem loadHistory_not_fail_open_on_parseable :
    decodeItems (Json.obj [("a", Json.num 1)]) = none ∧
      (loadHistory (Snapshot.value (Json.obj [("a", Json.num 1)]))
          initialRawState).historyVal = Json.obj [("a", Json.num 1)] ∧
      (loadHistory (Snapshot.value (Json.obj [("a", Json.num 1)]))
          initialRawState).historyVal ≠ encodeItems [] := by
  refine ⟨rfl, rfl, ?_⟩
  intro h
  exact Json.noConfusion h

/-- C4 as amended: `loadHistory` never propagates an error and always ends
with the readiness flag cleared; an absent snapshot and a snapshot on
which parsing throws leave the collection empty; a stored string that
parses has its parsed value installed into the state verbatim, with no
validation — in particular a well-formed snapshot is decoded into the
collection, while malformed-but-parseable content is installed as-is
rather than leaving the collection empty. -/
theorem loadHistory_total_installs_parsed (snap : Snapshot) :
    (loadHistory snap initialRawState).isLoading = false ∧
      (∀ j, snap = Snapshot.value j →
        (loadHistory snap initialRawState).historyVal = j) ∧
      ((snap = Snapshot.absent ∨ snap = Snapshot.corrupt) →
        (loadHistory snap initialRawState).historyVal = Json.arr []) ∧
      (∀ j items, snap = Snapshot.value j → decodeItems j = some items →
        decodeItems (loadHistory snap initialRawState).historyVal =
          some items) := by
  refine ⟨?_, ?_, ?_, ?_⟩
  · cases snap <;> rfl
  · intro j hs
    subst hs
    rfl
  · rintro (h | h) <;> subst h <;> rfl
  · intro j items hs hd
    subst hs
    exact hd

/-- Witness for the amended C4 at a concrete corrupt snapshot: the
collection starts empty and the readiness flag is cleared. -/
theorem loadHistory_total_installs_parsed_witness :
    (loadHistory Snapshot.corrupt initialRawState).historyVal = Json.arr [] ∧
      (loadHistory Snapshot.corrupt initialRawState).isLoading = false :=
  ⟨(loadHistory_total_installs_parsed Snapshot.corrupt).2.2.1 (Or.inr rfl),
    (loadHistory_total_installs_parsed Snapshot.corrupt).1⟩

/-- C5: under the documented invariant that no two records share an id,
removing a present id shrinks the collection by exactly one and that id no
longer appears afterwards; removing an absent id leaves the whole state
unchanged, and `removeScan` is a total function, so no error is raised in
either case. -/
theorem removeScan_present_or_absent (id : String) (st : StoreState)
    (w : WriteOutcome) (hnd : (st.history.map ScanItem.id).Nodup) :
    ((∃ a ∈ st.history, a.id = id) →
      (removeScan id st w).history.length + 1 = st.history.length ∧
        ∀ a ∈ (removeScan id st w).history, a.id ≠ id) ∧
      ((∀ a ∈ st.history, a.id ≠ id) → removeScan id st w = st) := by
  constructor
  · intro hmem
    refine ⟨filter_id_length hnd hmem, ?_⟩
    intro a ha
    have ha2 : a ∈ st.history.filter (fun x => x.id != id) := ha
    have hpa : (a.id != id) = true := (List.mem_filter.mp ha2).2
    simpa [bne_iff_ne] using hpa
  · intro habs
    have hfil : st.history.filter (fun x => x.id != id) = st.history := by
      refine List.filter_eq_self.mpr ?_
      intro a ha
      simpa [bne_iff_ne] using habs a ha
    show ({ st with history := st.history.filter (fun x => x.id != id) } : StoreState) = st
    rw [hfil]

/-- Witness for C5 at a concrete one-record state whose single id is
removed: the length drops from one to zero. -/
theorem removeScan_present_or_absent_witness :
    (removeScan "a1" sampleState WriteOutcome.ok).history.length + 1 =
      sampleState.history.length :=
  ((removeScan_present_or_absent "a1" sampleState WriteOutcome.ok
    (by decide)).1 ⟨sampleItem, by decide, rfl⟩).1

/-- C6: `clearHistory` always leaves the collection empty, whatever its
prior size, and a second `clearHistory` lands in exactly the state the
first one produced. -/
theorem clearHistory_empties_and_idempotent (st : StoreState)
    (w w2 : WriteOutcome) :
    (clearHistory st w).history = [] ∧
      clearHistory (clearHistory st w) w2 = clearHistory st w := by
  exact ⟨rfl, rfl⟩

/-- C7: serializing a collection and deserializing the result restores the
collection exactly: same ids, payloads, categories, timestamps, order. -/
theorem serialization_roundtrip (items : List ScanItem) :
    decodeItems (encodeItems items) = some items := by
  show decodeItemList (items.map itemToJson) = some items
  induction items with
  | nil => rfl
  | cons it rest ih =>
    rw [List.map_cons]
    show (match itemOfJson (itemToJson it), decodeItemList (rest.map itemToJson) with
      | some a, some as => some (a :: as)
      | _, _ => none) = some (it :: rest)
    rw [itemOfJson_itemToJson, ih]

/-- C8: a durable-write failure changes nothing the caller can observe:
every mutation returns the same result and the same state for a failing
write as for a successful one, the mutated in-memory collection is still in
place, the rejection of the raw storage call is swallowed inside
`saveHistory`, and `saveHistory` always returns normally. -/
theorem mutations_survive_write_failure :
    (∀ freshId now d st,
      addScan freshId now d st WriteOutcome.fail =
          addScan freshId now d st WriteOutcome.ok ∧
        (addScan freshId now d st WriteOutcome.fail).2.history =
          (addScan freshId now d st WriteOutcome.fail).1 :: st.history) ∧
      (∀ id st, removeScan id st WriteOutcome.fail =
          removeScan id st WriteOutcome.ok ∧
        (removeScan id st WriteOutcome.fail).history =
          st.history.filter (fun it => it.id != id)) ∧
      (∀ st, clearHistory st WriteOutcome.fail =
          clearHistory st WriteOutcome.ok ∧
        (clearHistory st WriteOutcome.fail).history = []) ∧
      setItemResult WriteOutcome.fail =
        Except.error "Failed to save scan history" ∧
      (∀ w items, saveHistory w items = ()) := by
  exact ⟨fun _ _ _ _ => ⟨rfl, rfl⟩, fun _ _ => ⟨rfl, rfl⟩,
    fun _ => ⟨rfl, rfl⟩, rfl, fun _ _ => rfl⟩

/-- C9: the email-shape and phone-shape checks are anchored to the whole
trimmed string: a whitespace character anywhere kills the email shape, a
character that is neither a plus sign nor of the phone body class kills the
phone shape wherever it occurs, and the example inputs that append extra
material after a valid shape fall through to `text`. -/
theorem shape_checks_whole_string :
    (∀ xs c ys, isJsWs c = true →
      matchesEmailShape (xs ++ c :: ys) = false) ∧
      (∀ xs c ys, c ≠ '+' → isPhoneBody c = false →
        matchesPhoneShape (xs ++ c :: ys) = false) ∧
      detectScanType "john@x.co extra" = ScanType.text ∧
      detectScanType "+1 555-123-4567 ext" = ScanType.text := by
  refine ⟨?_, ?_, by decide, by decide⟩
  · intro xs c ys hws
    cases hm : matchesEmailShape (xs ++ c :: ys)
    · rfl
    · have hc := matchesEmailShape_chars hm c (by simp)
      rw [hws] at hc
      cases hc
  · intro xs c ys hplus hbody
    cases hm : matchesPhoneShape (xs ++ c :: ys)
    · rfl
    · rcases matchesPhoneShape_chars hm c (by simp) with hc | hc
      · exact absurd hc hplus
      · rw [hbody] at hc
        cases hc

/-- Witness for C9: a space after a valid email shape defeats the email
check, and a letter after a valid phone shape defeats the phone check. -/
theorem shape_checks_whole_string_witness :
    matchesEmailShape ("john@x.co".data ++ ' ' :: "extra".data) = false ∧
      matchesPhoneShape ("+1555123456".data ++ 'x' :: []) = false :=
  ⟨shape_checks_whole_string.1 ("john@x.co".data) ' ' ("extra".data)
      (by decide),
    shape_checks_whole_string.2.1 ("+1555123456".data) 'x' [] (by decide)
      (by decide)⟩

/-- C10: `removeScan` is exactly a filter on the id: the resulting history
is a sublist of the previous one (so the relative order of the survivors is
preserved), a record survives exactly when it was present before with a
different id (and then it is the very same record, all fields included),
and the loading flag is untouched. -/
theorem removeScan_frame (id : String) (st : StoreState) (w : WriteOutcome) :
    (removeScan id st w).history =
        st.history.filter (fun it => it.id != id) ∧
      List.Sublist (removeScan id st w).history st.history ∧
      (∀ it, it ∈ (removeScan id st w).history ↔
        (it ∈ st.history ∧ it.id ≠ id)) ∧
      (removeScan id st w).isLoading = st.isLoading := by
  refine ⟨rfl, List.filter_sublist st.history, ?_, rfl⟩
  intro it
  show it ∈ st.history.filter (fun x => x.id != id) ↔ _
  rw [List.mem_filter]
  simp [bne_iff_ne]

end QrScan
